import Mathlib

/-!
# Verification of the Black-Scholes option pricer (`src/main.py`)

Shallow embedding of the `BsOption` class over exact real arithmetic.
Python floats are modelled by `ℝ`; `scipy.stats.norm.cdf` is modelled by the
standard normal cumulative distribution function `normCdf` defined as a
Gaussian integral; `norm.pdf` by `normPdf`.  Python exceptions are modelled
by an explicit `PyError` type and `Except` results; a method body that can
fall off the end without returning (Python's implicit `None`) is modelled
with `Option`.
-/

open MeasureTheory Set

noncomputable section

/-- `scipy.stats.norm.cdf`: the standard normal cumulative distribution
function, `N(x) = (∫_{-∞}^x e^{-t²/2} dt) / √(2π)`. -/
def normCdf (x : ℝ) : ℝ :=
  (∫ t in Iic x, Real.exp (-(t ^ 2) / 2)) / Real.sqrt (2 * Real.pi)

/-- `scipy.stats.norm.pdf`: the standard normal density. -/
def normPdf (x : ℝ) : ℝ :=
  Real.exp (-(x ^ 2) / 2) / Real.sqrt (2 * Real.pi)

/-- The parameter set stored by `BsOption.__init__` (`src/main.py`, lines 4-11):
spot `S`, strike `K`, time to expiry `T`, rate `r`, volatility `sigma`,
dividend yield `q`.  The constructor stores the six fields unvalidated. -/
structure BsOption where
  S : ℝ
  K : ℝ
  T : ℝ
  r : ℝ
  sigma : ℝ
  q : ℝ

namespace BsOption

/-- `d1` (`src/main.py`, lines 26-28). -/
def d1 (o : BsOption) : ℝ :=
  (Real.log (o.S / o.K) + (o.r - o.q + o.sigma ^ 2 / 2) * o.T) /
    (o.sigma * Real.sqrt o.T)

/-- `d2` (`src/main.py`, lines 30-31). -/
def d2 (o : BsOption) : ℝ :=
  o.d1 - o.sigma * Real.sqrt o.T

/-- `_call_value` (`src/main.py`, lines 33-35). -/
def callValue (o : BsOption) : ℝ :=
  o.S * Real.exp (-o.q * o.T) * normCdf o.d1 -
    o.K * Real.exp (-o.r * o.T) * normCdf o.d2

/-- `_put_value` (`src/main.py`, lines 37-39). -/
def putValue (o : BsOption) : ℝ :=
  o.K * Real.exp (-o.r * o.T) * normCdf (-o.d2) -
    o.S * Real.exp (-o.q * o.T) * normCdf (-o.d1)

end BsOption

/-! ## Facts about the normal CDF -/

lemma gauss_integrable : Integrable (fun t : ℝ => Real.exp (-(t ^ 2) / 2)) := by
  have h := integrable_exp_neg_mul_sq (b := (1 / 2 : ℝ)) (by norm_num)
  refine h.congr ?_
  filter_upwards with t
  ring_nf

lemma gauss_integral_total :
    (∫ t : ℝ, Real.exp (-(t ^ 2) / 2)) = Real.sqrt (2 * Real.pi) := by
  have h := integral_gaussian (1 / 2 : ℝ)
  have h2 : (fun t : ℝ => Real.exp (-(t ^ 2) / 2)) =
      fun t : ℝ => Real.exp (-(1 / 2 : ℝ) * t ^ 2) := by
    funext t; ring_nf
  rw [h2, h]
  rw [show (Real.pi / (1 / 2) : ℝ) = 2 * Real.pi by ring]

lemma gauss_pos (t : ℝ) : 0 < Real.exp (-(t ^ 2) / 2) := Real.exp_pos _

lemma gauss_integral_Iic_pos (x : ℝ) :
    0 < ∫ t in Iic x, Real.exp (-(t ^ 2) / 2) := by
  have hint : IntegrableOn (fun t : ℝ => Real.exp (-(t ^ 2) / 2)) (Iic x) :=
    gauss_integrable.integrableOn
  rw [setIntegral_pos_iff_support_of_nonneg_ae ?_ hint]
  · have hsupp : Function.support (fun t : ℝ => Real.exp (-(t ^ 2) / 2)) =
        Set.univ := by
      ext t; simp [Function.mem_support, (gauss_pos t).ne']
    rw [hsupp, Set.univ_inter, Real.volume_Iic]
    exact ENNReal.zero_lt_top
  · filter_upwards with t
    exact (gauss_pos t).le

lemma sqrt_two_pi_pos : 0 < Real.sqrt (2 * Real.pi) :=
  Real.sqrt_pos.mpr (by positivity)

lemma normCdf_pos (x : ℝ) : 0 < normCdf x :=
  div_pos (gauss_integral_Iic_pos x) sqrt_two_pi_pos

/-- Reflection: `N(x) + N(-x) = 1`. -/
lemma normCdf_add_neg (x : ℝ) : normCdf x + normCdf (-x) = 1 := by
  have heven : (∫ t in Iic (-x), Real.exp (-(t ^ 2) / 2)) =
      ∫ t in Ioi x, Real.exp (-(t ^ 2) / 2) := by
    have h1 : (∫ t in Iic (-x), Real.exp (-(t ^ 2) / 2)) =
        ∫ t in Iic (-x), Real.exp (-((-t) ^ 2) / 2) := by
      refine setIntegral_congr_fun measurableSet_Iic ?_
      intro t _
      ring_nf
    rw [h1]
    have h2 := integral_comp_neg_Iic (-x) (fun t : ℝ => Real.exp (-(t ^ 2) / 2))
    simp only [neg_neg] at h2
    exact h2
  have hsplit : (∫ t in Iic x, Real.exp (-(t ^ 2) / 2)) +
      (∫ t in Ioi x, Real.exp (-(t ^ 2) / 2)) = Real.sqrt (2 * Real.pi) := by
    rw [intervalIntegral.integral_Iic_add_Ioi gauss_integrable.integrableOn
      gauss_integrable.integrableOn]
    exact gauss_integral_total
  unfold normCdf
  rw [heven, div_add_div_same, hsplit, div_self sqrt_two_pi_pos.ne']

lemma normCdf_lt_one (x : ℝ) : normCdf x < 1 := by
  have h := normCdf_add_neg x
  have := normCdf_pos (-x)
  linarith

/-! ## Errors, dispatch, Greeks, solver, strategies -/

/-- Python runtime errors raised by `src/main.py`: `ValueError` (lines 49 and
136), the bare `Exception` of line 109, and the `UnboundLocalError`/`NameError`
produced when line 99 reads the never-assigned local `option_price_est`. -/
inductive PyError where
  | valueError (msg : String)
  | nameError (ident : String)
  | exception (msg : String)
deriving DecidableEq

/-- Result of `price` (`src/main.py`, lines 41-49): a bare float for kinds
`'C'`/`'P'`, or the dict `{'call': ..., 'put': ...}` for kind `'B'`. -/
inductive PriceResult where
  | single (v : ℝ)
  | both (call put : ℝ)

namespace BsOption

/-- `price` (`src/main.py`, lines 41-49). -/
def price (o : BsOption) (kind : String) : Except PyError PriceResult :=
  if kind = "C" then .ok (.single o.callValue)
  else if kind = "P" then .ok (.single o.putValue)
  else if kind = "B" then .ok (.both o.callValue o.putValue)
  else .error (.valueError "Unrecognized type")

/-- `delta` (`src/main.py`, lines 51-56); falls off the end (returns `None`)
for an unrecognized kind. -/
def delta (o : BsOption) (kind : String) : Option ℝ :=
  if kind = "C" then some (Real.exp (-o.q * o.T) * normCdf o.d1)
  else if kind = "P" then some (Real.exp (-o.q * o.T) * (normCdf o.d1 - 1))
  else none

/-- `gamma` (`src/main.py`, lines 58-60). -/
def gamma (o : BsOption) : ℝ :=
  Real.exp (-o.q * o.T) * normPdf o.d1 / (o.S * o.sigma * Real.sqrt o.T)

/-- `theta` (`src/main.py`, lines 62-70); returns `None` for an unrecognized
kind. -/
def theta (o : BsOption) (kind : String) : Option ℝ :=
  if kind = "C" then
    some ((-o.S * o.sigma * Real.exp (-o.q * o.T) * normPdf o.d1) /
        (2 * Real.sqrt o.T) -
      o.r * o.K * Real.exp (-o.r * o.T) * normCdf o.d2 +
      o.q * o.S * Real.exp (-o.q * o.T) * normCdf o.d1)
  else if kind = "P" then
    some ((-o.S * o.sigma * Real.exp (-o.q * o.T) * normPdf o.d1) /
        (2 * Real.sqrt o.T) +
      o.r * o.K * Real.exp (-o.r * o.T) * normCdf (-o.d2) -
      o.q * o.S * Real.exp (-o.q * o.T) * normCdf (-o.d1))
  else none

/-- `vega` (`src/main.py`, lines 72-74). -/
def vega (o : BsOption) : ℝ :=
  o.S * Real.exp (-o.q * o.T) * Real.sqrt o.T * normPdf o.d1

/-- `rho` (`src/main.py`, lines 76-81); returns `None` for an unrecognized
kind. -/
def rho (o : BsOption) (kind : String) : Option ℝ :=
  if kind = "C" then some (o.K * o.T * Real.exp (-o.r * o.T) * normCdf o.d2)
  else if kind = "P" then
    some (-o.K * o.T * Real.exp (-o.r * o.T) * normCdf (-o.d2))
  else none

end BsOption

/-- Tolerance hardcoded at `src/main.py` line 85. -/
def ivTolerance : ℝ := 1e-5

/-- Iteration cap hardcoded at `src/main.py` line 86. -/
def ivMaxIter : Nat := 1000

/-- Lower volatility bound hardcoded at `src/main.py` line 87. -/
def ivLower : ℝ := 0.001

/-- Upper volatility bound hardcoded at `src/main.py` line 88. -/
def ivUpper : ℝ := 5.0

/-- Message of the exception raised at `src/main.py` line 109. -/
def ivFailMsg : String := "Implied volatility not found within the specified tolerance."

namespace BsOption

/-- Lines 94-97 of `src/main.py`: the local `option_price_est` is assigned
only when the kind is `'C'` or `'P'`; otherwise it stays unbound (`none`). -/
def priceByKind (o : BsOption) (kind : String) : Option ℝ :=
  if kind = "C" then some o.callValue
  else if kind = "P" then some o.putValue
  else none

/-- The loop body of `implied_volatility` (`src/main.py`, lines 90-109),
with the Python `for i in range(max_iter)` modelled by fuel.  The state
component records the caller's object, whose `sigma` field line 92 overwrites
in place with the current midpoint; reading the unbound `option_price_est`
at line 99 raises an unbound-local error. -/
def ivLoop (target : ℝ) (kind : String) :
    Nat → BsOption → ℝ → ℝ → BsOption × Except PyError ℝ
  | 0, o, _, _ => (o, .error (.exception ivFailMsg))
  | fuel + 1, o, lower, upper =>
    let mid := (lower + upper) / 2
    let o' := { o with sigma := mid }
    match priceByKind o' kind with
    | none => (o', .error (.nameError "option_price_est"))
    | some est =>
      if |target - est| < ivTolerance then (o', .ok mid)
      else if target - est < 0 then ivLoop target kind fuel o' lower mid
      else ivLoop target kind fuel o' mid upper

/-- `implied_volatility` (`src/main.py`, lines 83-109): returns the final
state of the caller's object together with the returned volatility or the
raised error. -/
def impliedVolatility (o : BsOption) (target : ℝ) (kind : String) :
    BsOption × Except PyError ℝ :=
  ivLoop target kind ivMaxIter o ivLower ivUpper

/-- `option_strategy_price` (`src/main.py`, lines 111-136). -/
def strategyPrice (o : BsOption) (strategy : String) : Except PyError ℝ :=
  if strategy = "Straddle" then .ok (o.callValue + o.putValue)
  else if strategy = "Strangle" then
    .ok ((BsOption.mk o.S (o.K + 10) o.T o.r o.sigma o.q).callValue +
      (BsOption.mk o.S (o.K - 10) o.T o.r o.sigma o.q).putValue)
  else if strategy = "CalendarSpread" then
    .ok ((BsOption.mk o.S o.K (o.T + 0.5) o.r o.sigma o.q).callValue -
      (BsOption.mk o.S o.K o.T o.r o.sigma o.q).callValue)
  else .error (.valueError "Unrecognized strategy type")

end BsOption

/-- Forgets which error an `Except` carries. -/
def exceptToOption {ε α : Type} : Except ε α → Option α
  | .ok a => some a
  | .error _ => none

/-- Modelled from the spec (§4.4), for the refinement claim about the
bisection steps: `mid = (lower+upper)/2`, model price at `sigma = mid`,
`error = target − model price`, success when `|error| < tol`, `upper = mid`
when `error < 0`, else `lower = mid`; `none` when the iterations run out. -/
def specBisect (modelPrice : ℝ → ℝ) (target tol : ℝ) :
    Nat → ℝ → ℝ → Option ℝ
  | 0, _, _ => none
  | fuel + 1, lower, upper =>
    let mid := (lower + upper) / 2
    let err := target - modelPrice mid
    if |err| < tol then some mid
    else if err < 0 then specBisect modelPrice target tol fuel lower mid
    else specBisect modelPrice target tol fuel mid upper

/-- Modelled from the spec (§4.4): bisection from bounds `[0.001, 5.0]`,
tolerance `1e-5`, at most 1000 iterations. -/
def specImpliedVol (modelPrice : ℝ → ℝ) (target : ℝ) : Option ℝ :=
  specBisect modelPrice target (1e-5) 1000 (0.001) (5.0)

/-! ## Helper lemmas -/

lemma ivTolerance_pos : (0 : ℝ) < ivTolerance := by norm_num [ivTolerance]

/-- The call value is strictly below the discounted-spot bound `S·e^(-qT)`:
`N(d1) < 1` and the subtracted strike term is strictly positive. -/
lemma callValue_lt (o : BsOption) (hS : 0 < o.S) (hK : 0 < o.K) :
    o.callValue < o.S * Real.exp (-o.q * o.T) := by
  have h1 : normCdf o.d1 < 1 := normCdf_lt_one _
  have h2 : 0 < normCdf o.d2 := normCdf_pos _
  have h3 : 0 < o.S * Real.exp (-o.q * o.T) := by positivity
  have h4 : 0 < o.K * Real.exp (-o.r * o.T) := by positivity
  have h5 : o.S * Real.exp (-o.q * o.T) * normCdf o.d1 ≤
      o.S * Real.exp (-o.q * o.T) := by nlinarith
  have h6 : 0 < o.K * Real.exp (-o.r * o.T) * normCdf o.d2 := mul_pos h4 h2
  unfold BsOption.callValue
  linarith

/-- The call value is strictly above `−K·e^(-rT)`: the spot term is strictly
positive and the subtracted strike term is below `K·e^(-rT)`. -/
lemma callValue_gt_neg (o : BsOption) (hS : 0 < o.S) (hK : 0 < o.K) :
    -(o.K * Real.exp (-o.r * o.T)) < o.callValue := by
  have h1 : 0 < normCdf o.d1 := normCdf_pos _
  have h2 : normCdf o.d2 < 1 := normCdf_lt_one _
  have h3 : 0 < o.S * Real.exp (-o.q * o.T) := by positivity
  have h4 : 0 < o.K * Real.exp (-o.r * o.T) := by positivity
  have h5 : o.K * Real.exp (-o.r * o.T) * normCdf o.d2 ≤
      o.K * Real.exp (-o.r * o.T) := by nlinarith
  have h6 : 0 < o.S * Real.exp (-o.q * o.T) * normCdf o.d1 := mul_pos h3 h1
  unfold BsOption.callValue
  linarith

/-- A target at least `ivTolerance` above the bound `S·e^(-qT)` keeps the
bisection error at least the tolerance at every admissible volatility. -/
lemma unattainable_above (o : BsOption) (t : ℝ) (hS : 0 < o.S) (hK : 0 < o.K)
    (ht : o.S * Real.exp (-o.q * o.T) + ivTolerance ≤ t) :
    ∀ σ, ivLower ≤ σ → σ ≤ ivUpper → ∀ est,
      BsOption.priceByKind { o with sigma := σ } "C" = some est →
      ivTolerance ≤ t - est := by
  intro σ _ _ est hest
  have hpk : BsOption.priceByKind { o with sigma := σ } "C" =
      some ({ o with sigma := σ } : BsOption).callValue := by
    simp [BsOption.priceByKind]
  rw [hpk, Option.some_inj] at hest
  have hlt : ({ o with sigma := σ } : BsOption).callValue <
      o.S * Real.exp (-o.q * o.T) := callValue_lt _ hS hK
  subst hest
  linarith

/-- Under a bracket inside `[0.001, 5.0]` and a target whose error never
drops below the tolerance anywhere in `[0.001, 5.0]`, the loop exhausts its
fuel and ends in the line-109 exception. -/
lemma ivLoop_unattainable (t : ℝ) (kind : String)
    (hk : kind = "C" ∨ kind = "P") (fuel : Nat) :
    ∀ (o : BsOption) (l u : ℝ), ivLower ≤ l → l ≤ u → u ≤ ivUpper →
    (∀ σ, ivLower ≤ σ → σ ≤ ivUpper → ∀ est,
      BsOption.priceByKind { o with sigma := σ } kind = some est →
      ivTolerance ≤ |t - est|) →
    (BsOption.ivLoop t kind fuel o l u).2 = .error (.exception ivFailMsg) := by
  induction fuel with
  | zero => intro o l u _ _ _ _; rfl
  | succ n ih =>
    intro o l u hl hlu hu H
    have hmid1 : ivLower ≤ (l + u) / 2 := by linarith
    have hmid2 : (l + u) / 2 ≤ ivUpper := by linarith
    rcases hk with hC | hP
    · subst hC
      have hpk : BsOption.priceByKind { o with sigma := (l + u) / 2 } "C" =
          some ({ o with sigma := (l + u) / 2 } : BsOption).callValue := by
        simp [BsOption.priceByKind]
      have hest := H ((l + u) / 2) hmid1 hmid2 _ hpk
      have hnot : ¬ |t - ({ o with sigma := (l + u) / 2 } : BsOption).callValue| <
          ivTolerance := not_lt.mpr hest
      simp only [BsOption.ivLoop, hpk, hnot, if_false]
      split
      · exact ih _ _ _ hl (by linarith) hmid2 H
      · exact ih _ _ _ hmid1 (by linarith) hu H
    · subst hP
      have hpk : BsOption.priceByKind { o with sigma := (l + u) / 2 } "P" =
          some ({ o with sigma := (l + u) / 2 } : BsOption).putValue := by
        simp [BsOption.priceByKind]
      have hest := H ((l + u) / 2) hmid1 hmid2 _ hpk
      have hnot : ¬ |t - ({ o with sigma := (l + u) / 2 } : BsOption).putValue| <
          ivTolerance := not_lt.mpr hest
      simp only [BsOption.ivLoop, hpk, hnot, if_false]
      split
      · exact ih _ _ _ hl (by linarith) hmid2 H
      · exact ih _ _ _ hmid1 (by linarith) hu H

/-- With a target whose (signed) error stays at least the tolerance, every
branch keeps `lower := mid`, so the final in-place value of `sigma` is at
least the first midpoint of the bracket. -/
lemma ivLoop_sigma_ge (t : ℝ) (fuel : Nat) :
    ∀ (o : BsOption) (l u : ℝ), ivLower ≤ l → l ≤ u → u ≤ ivUpper →
    (∀ σ, ivLower ≤ σ → σ ≤ ivUpper → ∀ est,
      BsOption.priceByKind { o with sigma := σ } "C" = some est →
      ivTolerance ≤ t - est) →
    (l + u) / 2 ≤ (BsOption.ivLoop t "C" (fuel + 1) o l u).1.sigma := by
  induction fuel with
  | zero =>
    intro o l u hl hlu hu H
    have hmid1 : ivLower ≤ (l + u) / 2 := by linarith
    have hmid2 : (l + u) / 2 ≤ ivUpper := by linarith
    have hpk : BsOption.priceByKind { o with sigma := (l + u) / 2 } "C" =
        some ({ o with sigma := (l + u) / 2 } : BsOption).callValue := by
      simp [BsOption.priceByKind]
    have hest := H ((l + u) / 2) hmid1 hmid2 _ hpk
    have hnot : ¬ |t - ({ o with sigma := (l + u) / 2 } : BsOption).callValue| <
        ivTolerance :=
      not_lt.mpr (le_trans hest (le_abs_self _))
    have hnn : ¬ t - ({ o with sigma := (l + u) / 2 } : BsOption).callValue < 0 := by
      have := ivTolerance_pos
      push_neg
      linarith
    simp only [BsOption.ivLoop, hpk, hnot, if_false, hnn]
    exact le_refl _
  | succ n ih =>
    intro o l u hl hlu hu H
    have hmid1 : ivLower ≤ (l + u) / 2 := by linarith
    have hmid2 : (l + u) / 2 ≤ ivUpper := by linarith
    have hpk : BsOption.priceByKind { o with sigma := (l + u) / 2 } "C" =
        some ({ o with sigma := (l + u) / 2 } : BsOption).callValue := by
      simp [BsOption.priceByKind]
    have hest := H ((l + u) / 2) hmid1 hmid2 _ hpk
    have hnot : ¬ |t - ({ o with sigma := (l + u) / 2 } : BsOption).callValue| <
        ivTolerance :=
      not_lt.mpr (le_trans hest (le_abs_self _))
    have hnn : ¬ t - ({ o with sigma := (l + u) / 2 } : BsOption).callValue < 0 := by
      have := ivTolerance_pos
      push_neg
      linarith
    simp only [BsOption.ivLoop, hpk, hnot, if_false, hnn]
    have h := ih { o with sigma := (l + u) / 2 } ((l + u) / 2) u hmid1
      (by linarith) hu H
    calc (l + u) / 2 ≤ ((l + u) / 2 + u) / 2 := by linarith
    _ ≤ _ := h

/-- When the very first midpoint already satisfies the tolerance test, the
loop returns it at once (kind `'C'`), with `sigma` overwritten in place. -/
lemma ivLoop_first_hit (t : ℝ) (fuel : Nat) (o : BsOption) (l u : ℝ)
    (habs : |t - ({ o with sigma := (l + u) / 2 } : BsOption).callValue| <
      ivTolerance) :
    BsOption.ivLoop t "C" (fuel + 1) o l u =
      ({ o with sigma := (l + u) / 2 }, .ok ((l + u) / 2)) := by
  have hpk : BsOption.priceByKind { o with sigma := (l + u) / 2 } "C" =
      some ({ o with sigma := (l + u) / 2 } : BsOption).callValue := by
    simp [BsOption.priceByKind]
  simp only [BsOption.ivLoop, hpk]
  rw [if_pos habs]

/-- For kind `'C'` the loop of `implied_volatility` computes, step for step,
the bisection described by the spec, with the model price taken at
`sigma = mid`. -/
lemma ivLoop_spec_call (t : ℝ) (fuel : Nat) :
    ∀ (o : BsOption) (l u : ℝ),
    exceptToOption (BsOption.ivLoop t "C" fuel o l u).2 =
      specBisect (fun σ => ({ o with sigma := σ } : BsOption).callValue) t
        ivTolerance fuel l u := by
  induction fuel with
  | zero => intro o l u; rfl
  | succ n ih =>
    intro o l u
    have hpk : BsOption.priceByKind { o with sigma := (l + u) / 2 } "C" =
        some ({ o with sigma := (l + u) / 2 } : BsOption).callValue := by
      simp [BsOption.priceByKind]
    simp only [BsOption.ivLoop, specBisect, hpk]
    split
    · rfl
    · split
      · exact ih _ _ _
      · exact ih _ _ _

/-- For kind `'P'` the loop of `implied_volatility` computes, step for step,
the bisection described by the spec, with the model price taken at
`sigma = mid`. -/
lemma ivLoop_spec_put (t : ℝ) (fuel : Nat) :
    ∀ (o : BsOption) (l u : ℝ),
    exceptToOption (BsOption.ivLoop t "P" fuel o l u).2 =
      specBisect (fun σ => ({ o with sigma := σ } : BsOption).putValue) t
        ivTolerance fuel l u := by
  induction fuel with
  | zero => intro o l u; rfl
  | succ n ih =>
    intro o l u
    have hpk : BsOption.priceByKind { o with sigma := (l + u) / 2 } "P" =
        some ({ o with sigma := (l + u) / 2 } : BsOption).putValue := by
      simp [BsOption.priceByKind]
    simp only [BsOption.ivLoop, specBisect, hpk]
    split
    · rfl
    · split
      · exact ih _ _ _
      · exact ih _ _ _

/-! ## Claims -/

/-- C1 (code bug in the source): the claim — `implied_volatility` leaves every
field of the caller's parameter set, including `sigma`, unchanged — is what the
spec requires, but line 92 of `src/main.py` overwrites `self.sigma` with the
current midpoint on every iteration.  Evaluating the code at the failing input
`(S,K,T,r,sigma,q) = (1,1,1,0,0.3,0)`, `implied_volatility(2, 'C')`: the final
`sigma` is at least the first midpoint `(0.001+5.0)/2 = 2.5005`, hence not the
original `0.3`. -/
theorem impliedVol_mutates_sigma :
    ((BsOption.mk 1 1 1 0 0.3 0).impliedVolatility 2 "C").1.sigma ≠ 0.3 := by
  have H : ∀ σ, ivLower ≤ σ → σ ≤ ivUpper → ∀ est,
      BsOption.priceByKind { BsOption.mk 1 1 1 0 0.3 0 with sigma := σ } "C" =
        some est → ivTolerance ≤ 2 - est := by
    refine unattainable_above _ 2 (by norm_num) (by norm_num) ?_
    simp only [ivTolerance]
    norm_num [Real.exp_zero]
  have h : (ivLower + ivUpper) / 2 ≤
      ((BsOption.mk 1 1 1 0 0.3 0).impliedVolatility 2 "C").1.sigma :=
    ivLoop_sigma_ge 2 999 _ ivLower ivUpper le_rfl
      (by norm_num [ivLower, ivUpper]) le_rfl H
  intro hc
  rw [hc] at h
  norm_num [ivLower, ivUpper] at h

/-- C2: put-call parity.  Over exact real arithmetic the call value minus the
put value equals `S·e^(-qT) − K·e^(-rT)` exactly, for every valid parameter
set. -/
theorem put_call_parity (o : BsOption) (_hS : 0 < o.S) (_hK : 0 < o.K)
    (_hT : 0 < o.T) (_hsigma : 0 < o.sigma) :
    o.callValue - o.putValue =
      o.S * Real.exp (-o.q * o.T) - o.K * Real.exp (-o.r * o.T) := by
  have h1 := normCdf_add_neg o.d1
  have h2 := normCdf_add_neg o.d2
  unfold BsOption.callValue BsOption.putValue
  linear_combination (o.S * Real.exp (-o.q * o.T)) * h1 -
    (o.K * Real.exp (-o.r * o.T)) * h2

/-- C2 witness: parity instantiated at
`(S,K,T,r,sigma,q) = (100,100,1,0.1,0.3,0)`. -/
theorem put_call_parity_witness :
    (0 : ℝ) < 100 ∧ (0 : ℝ) < 1 ∧ (0 : ℝ) < 0.3 ∧
    (BsOption.mk 100 100 1 0.1 0.3 0).callValue -
        (BsOption.mk 100 100 1 0.1 0.3 0).putValue =
      100 * Real.exp (-(0 : ℝ) * 1) - 100 * Real.exp (-(0.1 : ℝ) * 1) :=
  ⟨by norm_num, by norm_num, by norm_num,
    put_call_parity _ (by norm_num) (by norm_num) (by norm_num) (by norm_num)⟩

/-- C3 counterexample: the claim says an unrecognized kind fails with an error
naming that kind, but line 49 of `src/main.py` raises the fixed message
`ValueError('Unrecognized type')`: at the concrete inputs `'X'` and `'Y'` the
two error values are identical, so the error cannot name the kind. -/
theorem price_error_names_no_kind :
    (BsOption.mk 100 100 1 0.1 0.3 0).price "X" =
      .error (.valueError "Unrecognized type") ∧
    (BsOption.mk 100 100 1 0.1 0.3 0).price "Y" =
      .error (.valueError "Unrecognized type") := by
  have hx1 : ("X" : String) ≠ "C" := by decide
  have hx2 : ("X" : String) ≠ "P" := by decide
  have hx3 : ("X" : String) ≠ "B" := by decide
  have hy1 : ("Y" : String) ≠ "C" := by decide
  have hy2 : ("Y" : String) ≠ "P" := by decide
  have hy3 : ("Y" : String) ≠ "B" := by decide
  constructor
  · simp [BsOption.price, hx1, hx2, hx3]
  · simp [BsOption.price, hy1, hy2, hy3]

/-- C3 (amended): `price` dispatches on kind — `'C'` the call value, `'P'` the
put value, `'B'` the mapping with both — and every other kind fails with a
`ValueError` carrying the fixed message `'Unrecognized type'` (which does not
name the unrecognized kind), returning no partial result. -/
theorem price_dispatch (o : BsOption) (kind : String) :
    o.price "C" = .ok (.single o.callValue) ∧
    o.price "P" = .ok (.single o.putValue) ∧
    o.price "B" = .ok (.both o.callValue o.putValue) ∧
    (kind ≠ "C" → kind ≠ "P" → kind ≠ "B" →
      o.price kind = .error (.valueError "Unrecognized type")) := by
  refine ⟨by simp [BsOption.price], by simp [BsOption.price],
    by simp [BsOption.price], fun h1 h2 h3 => ?_⟩
  simp [BsOption.price, h1, h2, h3]

/-- C3 witness: dispatch instantiated at a concrete parameter set, with the
error branch taken at the concrete unrecognized kind `'Z'`. -/
theorem price_dispatch_witness :
    (BsOption.mk 100 100 1 0.1 0.3 0).price "C" =
      .ok (.single (BsOption.mk 100 100 1 0.1 0.3 0).callValue) ∧
    (BsOption.mk 100 100 1 0.1 0.3 0).price "Z" =
      .error (.valueError "Unrecognized type") :=
  ⟨(price_dispatch (BsOption.mk 100 100 1 0.1 0.3 0) "Z").1,
    (price_dispatch (BsOption.mk 100 100 1 0.1 0.3 0) "Z").2.2.2
      (by decide) (by decide) (by decide)⟩

/-- C4 counterexample: the claim as stated is false at the concrete input
`(S,K,T,r,sigma,q) = (1e-6, 1e-6, 1, 0, 0.3, 0)` with target `1.001e-6`.  The
target lies strictly above the maximum possible value `S·e^(-qT) = 1e-6`
(first conjunct; every call value is below that bound), so it is not
attainable for any volatility — the claim’s own example class — yet
`implied_volatility` does not fail with any error: the first midpoint’s price
is already within the `1e-5` tolerance of the target (all call values here
lie in `(−1e-6, 1e-6)`), so line 102 returns `mid = 2.5005` as if valid. -/
theorem iv_returns_for_unattainable_target :
    (BsOption.mk (1e-6) (1e-6) 1 0 0.3 0).S *
        Real.exp (-(BsOption.mk (1e-6) (1e-6) 1 0 0.3 0).q *
          (BsOption.mk (1e-6) (1e-6) 1 0 0.3 0).T) < 1.001e-6 ∧
    ((BsOption.mk (1e-6) (1e-6) 1 0 0.3 0).impliedVolatility (1.001e-6) "C").2 =
      .ok ((ivLower + ivUpper) / 2) := by
  constructor
  · norm_num [Real.exp_zero]
  · have habs : |(1.001e-6 : ℝ) -
        ({ BsOption.mk (1e-6) (1e-6) 1 0 0.3 0 with
          sigma := (ivLower + ivUpper) / 2 } : BsOption).callValue| <
        ivTolerance := by
      have h1 := callValue_lt ({ BsOption.mk (1e-6) (1e-6) 1 0 0.3 0 with
        sigma := (ivLower + ivUpper) / 2 }) (by norm_num) (by norm_num)
      have h2 := callValue_gt_neg ({ BsOption.mk (1e-6) (1e-6) 1 0 0.3 0 with
        sigma := (ivLower + ivUpper) / 2 }) (by norm_num) (by norm_num)
      have e1 : ({ BsOption.mk (1e-6) (1e-6) 1 0 0.3 0 with
            sigma := (ivLower + ivUpper) / 2 } : BsOption).S *
          Real.exp (-({ BsOption.mk (1e-6) (1e-6) 1 0 0.3 0 with
            sigma := (ivLower + ivUpper) / 2 } : BsOption).q *
          ({ BsOption.mk (1e-6) (1e-6) 1 0 0.3 0 with
            sigma := (ivLower + ivUpper) / 2 } : BsOption).T) = 1e-6 := by
        norm_num [Real.exp_zero]
      have e2 : ({ BsOption.mk (1e-6) (1e-6) 1 0 0.3 0 with
            sigma := (ivLower + ivUpper) / 2 } : BsOption).K *
          Real.exp (-({ BsOption.mk (1e-6) (1e-6) 1 0 0.3 0 with
            sigma := (ivLower + ivUpper) / 2 } : BsOption).r *
          ({ BsOption.mk (1e-6) (1e-6) 1 0 0.3 0 with
            sigma := (ivLower + ivUpper) / 2 } : BsOption).T) = 1e-6 := by
        norm_num [Real.exp_zero]
      rw [e1] at h1
      rw [e2] at h2
      rw [abs_lt]
      constructor
      · simp only [ivTolerance]
        linarith
      · simp only [ivTolerance]
        linarith
    have e := ivLoop_first_hit (1.001e-6) 999
      (BsOption.mk (1e-6) (1e-6) 1 0 0.3 0) ivLower ivUpper habs
    exact congrArg Prod.snd e

/-- C4 (amended): for every target price whose bisection error never falls
below the tolerance anywhere in `[0.001, 5.0]`, `implied_volatility`
terminates after its at most 1000 iterations and fails with the line-109
exception carrying a fixed message; it neither loops forever nor returns any
value.  This tolerance-based scope is what the counterexample forces: an
unattainable target that happens to lie within the tolerance of some
midpoint's price is returned as a volatility instead of failing, so the
original "every unattainable target" scope is false, and when the solver does
fail the fixed message names neither target, kind nor bracket. -/
theorem impliedVol_unattainable_error (o : BsOption) (t : ℝ) (kind : String)
    (hk : kind = "C" ∨ kind = "P")
    (H : ∀ σ, ivLower ≤ σ → σ ≤ ivUpper → ∀ est,
      BsOption.priceByKind { o with sigma := σ } kind = some est →
      ivTolerance ≤ |t - est|) :
    (o.impliedVolatility t kind).2 = .error (.exception ivFailMsg) :=
  ivLoop_unattainable t kind hk ivMaxIter o ivLower ivUpper le_rfl
    (by norm_num [ivLower, ivUpper]) le_rfl H

/-- C4 witness: the unattainable target `2` on the parameter set
`(1,1,1,0,0.3,0)`, kind `'C'`. -/
theorem impliedVol_unattainable_error_witness :
    ((BsOption.mk 1 1 1 0 0.3 0).impliedVolatility 2 "C").2 =
      .error (.exception ivFailMsg) := by
  apply impliedVol_unattainable_error _ 2 "C" (Or.inl rfl)
  intro σ h1 h2 est hest
  refine le_trans (unattainable_above (BsOption.mk 1 1 1 0 0.3 0) 2
    (by norm_num) (by norm_num) ?_ σ h1 h2 est hest) (le_abs_self _)
  simp only [ivTolerance]
  norm_num [Real.exp_zero]

/-- C5: the solver follows the specified bisection steps.  For either kind the
value returned (or the absence of one) by the source loop coincides with the
spec-side bisection `specImpliedVol`: bounds `0.001` and `5.0`,
`mid = (lower+upper)/2`, model price recomputed at `sigma = mid` with the
formula selected by the kind, `error = target − model price`, success
returning `mid` when `|error| < 1e-5`, `upper = mid` when `error < 0`, else
`lower = mid`, at most 1000 iterations. -/
theorem impliedVol_follows_spec_bisection (o : BsOption) (t : ℝ) :
    exceptToOption (o.impliedVolatility t "C").2 =
      specImpliedVol (fun σ => ({ o with sigma := σ } : BsOption).callValue) t ∧
    exceptToOption (o.impliedVolatility t "P").2 =
      specImpliedVol (fun σ => ({ o with sigma := σ } : BsOption).putValue) t :=
  ⟨ivLoop_spec_call t ivMaxIter o ivLower ivUpper,
    ivLoop_spec_put t ivMaxIter o ivLower ivUpper⟩

/-- C6 (code bug in the source): the claim — non-positive `T` or `sigma` is
rejected with an explicit `DomainError` at construction or first use — is what
the spec requires, but `__init__` (lines 5-11) stores the fields unvalidated
and `d1` (lines 26-28) evaluates regardless: at the failing inputs `T = 0` and
`sigma = 0` the constructor succeeds and `d1` evaluates with a zero
denominator (returning `0` under the real-division convention; NaN/Inf in
Python floats), raising no error of any kind. -/
theorem no_domain_validation :
    (BsOption.mk 100 100 0 0 0.3 0).T = 0 ∧
    (BsOption.mk 100 100 1 0 0 0).sigma = 0 ∧
    (BsOption.mk 100 100 0 0 0.3 0).d1 = 0 ∧
    (BsOption.mk 100 100 1 0 0 0).d1 = 0 := by
  refine ⟨rfl, rfl, ?_, ?_⟩ <;> simp [BsOption.d1]

/-- C7: for every kind other than `'C'` and `'P'`, each of `delta`, `theta`
and `rho` falls off the end of the method and silently yields no value
(`None`), rather than failing with an explicit error. -/
theorem greeks_silent_none (o : BsOption) (kind : String)
    (h1 : kind ≠ "C") (h2 : kind ≠ "P") :
    o.delta kind = none ∧ o.theta kind = none ∧ o.rho kind = none := by
  refine ⟨?_, ?_, ?_⟩ <;>
    simp [BsOption.delta, BsOption.theta, BsOption.rho, h1, h2]

/-- C7 witness: the concrete unrecognized kind `'X'`. -/
theorem greeks_silent_none_witness :
    ("X" : String) ≠ "C" ∧ ("X" : String) ≠ "P" ∧
    ((BsOption.mk 100 100 1 0.1 0.3 0).delta "X" = none ∧
      (BsOption.mk 100 100 1 0.1 0.3 0).theta "X" = none ∧
      (BsOption.mk 100 100 1 0.1 0.3 0).rho "X" = none) :=
  ⟨by decide, by decide,
    greeks_silent_none (BsOption.mk 100 100 1 0.1 0.3 0) "X"
      (by decide) (by decide)⟩

/-- C8: `strategy_price('Strangle')` builds two fresh parameter sets — a call
leg at strike `K+10` and a put leg at strike `K−10`, all other fields copied —
and returns the call value of the call leg plus the put value of the put leg.
The legs are fresh `BsOption` records built from the original's fields, so
neither the original nor either leg can affect the others. -/
theorem strangle_price (o : BsOption) (_hS : 0 < o.S) (_hK : 0 < o.K)
    (_hT : 0 < o.T) (_hsigma : 0 < o.sigma) :
    o.strategyPrice "Strangle" =
      .ok ((BsOption.mk o.S (o.K + 10) o.T o.r o.sigma o.q).callValue +
        (BsOption.mk o.S (o.K - 10) o.T o.r o.sigma o.q).putValue) := by
  have h : ("Strangle" : String) ≠ "Straddle" := by decide
  simp [BsOption.strategyPrice, h]

/-- C8 witness: the strangle at `(S,K,T,r,sigma,q) = (100,100,1,0.1,0.3,0)`
prices the legs at strikes `110` and `90`. -/
theorem strangle_price_witness :
    (0 : ℝ) < 100 ∧ (0 : ℝ) < 1 ∧ (0 : ℝ) < 0.3 ∧
    (BsOption.mk 100 100 1 0.1 0.3 0).strategyPrice "Strangle" =
      .ok ((BsOption.mk 100 (100 + 10) 1 0.1 0.3 0).callValue +
        (BsOption.mk 100 (100 - 10) 1 0.1 0.3 0).putValue) :=
  ⟨by norm_num, by norm_num, by norm_num,
    strangle_price (BsOption.mk 100 100 1 0.1 0.3 0)
      (by norm_num) (by norm_num) (by norm_num) (by norm_num)⟩

/-- C9: for every valid parameter set, `delta('C') − delta('P')` equals
`e^(-qT)` exactly: both branches return a value and the difference collapses
to the discount factor. -/
theorem delta_parity (o : BsOption) (_hS : 0 < o.S) (_hK : 0 < o.K)
    (_hT : 0 < o.T) (_hsigma : 0 < o.sigma) :
    ∃ dc dp, o.delta "C" = some dc ∧ o.delta "P" = some dp ∧
      dc - dp = Real.exp (-o.q * o.T) := by
  refine ⟨Real.exp (-o.q * o.T) * normCdf o.d1,
    Real.exp (-o.q * o.T) * (normCdf o.d1 - 1), ?_, ?_, by ring⟩
  · simp [BsOption.delta]
  · simp [BsOption.delta]

/-- C9 witness: delta parity at `(S,K,T,r,sigma,q) = (100,100,1,0.1,0.3,0)`. -/
theorem delta_parity_witness :
    (0 : ℝ) < 100 ∧ (0 : ℝ) < 1 ∧ (0 : ℝ) < 0.3 ∧
    (∃ dc dp, (BsOption.mk 100 100 1 0.1 0.3 0).delta "C" = some dc ∧
      (BsOption.mk 100 100 1 0.1 0.3 0).delta "P" = some dp ∧
      dc - dp = Real.exp (-(0 : ℝ) * 1)) :=
  ⟨by norm_num, by norm_num, by norm_num,
    delta_parity (BsOption.mk 100 100 1 0.1 0.3 0)
      (by norm_num) (by norm_num) (by norm_num) (by norm_num)⟩

/-- C10: for every kind other than `'C'` and `'P'`, `implied_volatility`
assigns no model price on the first iteration, so line 99 reads the unbound
local `option_price_est` and the call fails with an unbound-local error; the
caller's `sigma` has already been overwritten with the first midpoint
`(0.001+5.0)/2`, and neither a volatility nor the `ValueError`/exhaustion
errors are produced. -/
theorem impliedVol_unbound_local (o : BsOption) (t : ℝ) (kind : String)
    (h1 : kind ≠ "C") (h2 : kind ≠ "P") :
    o.impliedVolatility t kind =
      ({ o with sigma := (ivLower + ivUpper) / 2 },
        .error (.nameError "option_price_est")) := by
  have hpk : ∀ o' : BsOption, BsOption.priceByKind o' kind = none := by
    intro o'
    simp [BsOption.priceByKind, h1, h2]
  have e : BsOption.ivLoop t kind (999 + 1) o ivLower ivUpper =
      ({ o with sigma := (ivLower + ivUpper) / 2 },
        .error (.nameError "option_price_est")) := by
    simp only [BsOption.ivLoop, hpk]
  exact e

/-- C10 witness: the concrete unrecognized kind `'X'`. -/
theorem impliedVol_unbound_local_witness :
    ("X" : String) ≠ "C" ∧ ("X" : String) ≠ "P" ∧
    (BsOption.mk 100 100 1 0.1 0.3 0).impliedVolatility 10 "X" =
      ({ BsOption.mk 100 100 1 0.1 0.3 0 with
          sigma := (ivLower + ivUpper) / 2 },
        .error (.nameError "option_price_est")) :=
  ⟨by decide, by decide,
    impliedVol_unbound_local (BsOption.mk 100 100 1 0.1 0.3 0) 10 "X"
      (by decide) (by decide)⟩
